import Mathlib

/-!
Period resolution and API status checks of timetrack-report.

A shallow embedding of `main.go`: the period computation `getDates` with its helper
`prepareMonth`, and the three API operations `getAccessToken`, `getFilters` and `getReport`
over an explicit wire, with the redirect-following `Client.Do` of net/http and a record of
the requests sent and the bodies decoded.
-/

namespace TimetrackReport

/-! ## Formatting verbs of `fmt.Sprintf` -/

/-- Rendering of the `%d` verb for a Go `int`: decimal digits, a leading `-` when negative. -/
def fmtD : Int → String
  | Int.ofNat n => Nat.repr n
  | Int.negSucc n => "-" ++ Nat.repr (n + 1)

/-! ## The date seen by `getDates` -/

/-- The view of a `time.Time` that `getDates` reads: `Year()`, `Month()` and `Day()`, all Go
integers (`time.Month` is an `int` type and `%d` prints its number). The years of a
`time.Time` stay far inside the 64-bit range, so `year - 1` and `year + 1` do not wrap. -/
structure Time where
  year : Int
  month : Int
  day : Int
deriving DecidableEq

/-- Source `prepareMonth` (main.go 258-263). -/
def prepareMonth (month : Int) : String :=
  if month < 10 then
    "0" ++ fmtD month
  else
    fmtD month

/-- Source `getDates` (main.go 226-256). The result `none` stands for the final
`panic("not implemented")`. -/
def getDates (date : Time) : Option (String × String) :=
  if date.day ≥ 10 ∧ date.day ≤ 24 then
    some (fmtD date.year ++ "-" ++ prepareMonth date.month ++ "-" ++ fmtD 10,
          fmtD date.year ++ "-" ++ prepareMonth date.month ++ "-" ++ fmtD 24)
  else if date.day ≤ 9 then
    let ym : Int × Int :=
      if date.month = 1 then (date.year - 1, 12) else (date.year, date.month - 1)
    some (fmtD ym.1 ++ "-" ++ prepareMonth ym.2 ++ "-" ++ fmtD 25,
          fmtD date.year ++ "-" ++ prepareMonth date.month ++ "-0" ++ fmtD 9)
  else if date.day ≥ 25 then
    let ym : Int × Int :=
      if date.month = 12 then (date.year + 1, 1) else (date.year, date.month + 1)
    some (fmtD date.year ++ "-" ++ prepareMonth date.month ++ "-" ++ fmtD 25,
          fmtD ym.1 ++ "-" ++ prepareMonth ym.2 ++ "-0" ++ fmtD 9)
  else
    none

/-! ## Calendar notions used to state the properties -/

/-- Two decimal digits, zero-padded, of a number in `0..99`. -/
def twoDigits (n : Int) : String :=
  String.mk [Nat.digitChar (n.toNat / 10), Nat.digitChar (n.toNat % 10)]

/-- The rendering `Y-MM-DD` of a date: the year in decimal, then month and day on two digits. -/
def isoDate (d : Time) : String :=
  fmtD d.year ++ "-" ++ twoDigits d.month ++ "-" ++ twoDigits d.day

/-- Gregorian leap years. -/
def isLeap (year : Int) : Bool :=
  year % 4 = 0 ∧ (year % 100 ≠ 0 ∨ year % 400 = 0)

/-- Number of days of a month of the Gregorian calendar. -/
def daysIn (year month : Int) : Int :=
  if month = 2 then (if isLeap year then 29 else 28)
  else if month = 4 ∨ month = 6 ∨ month = 9 ∨ month = 11 then 30
  else 31

/-- A valid calendar date: month in `1..12`, day in `1..daysIn`. -/
def Time.Valid (d : Time) : Prop :=
  1 ≤ d.month ∧ d.month ≤ 12 ∧ 1 ≤ d.day ∧ d.day ≤ daysIn d.year d.month

instance (d : Time) : Decidable d.Valid := by
  unfold Time.Valid; exact inferInstance

/-- Chronological order on dates, `a` not later than `b`. -/
def Time.le (a b : Time) : Prop :=
  a.year < b.year ∨ (a.year = b.year ∧ (a.month < b.month ∨ (a.month = b.month ∧ a.day ≤ b.day)))

instance (a b : Time) : Decidable (a.le b) := by
  unfold Time.le; exact inferInstance

/-- The calendar day following `d`. -/
def nextDay (d : Time) : Time :=
  if d.day < daysIn d.year d.month then ⟨d.year, d.month, d.day + 1⟩
  else if d.month < 12 then ⟨d.year, d.month + 1, 1⟩
  else ⟨d.year + 1, 1, 1⟩

/-- The window from the 10th to the 24th of one and the same month. -/
def midWindow (s e : Time) : Prop :=
  s.day = 10 ∧ e.day = 24 ∧ e.year = s.year ∧ e.month = s.month

/-- The window from the 25th of a month to the 9th of the month that follows it. -/
def crossWindow (s e : Time) : Prop :=
  s.day = 25 ∧ e.day = 9 ∧
    ((s.month = 12 ∧ e.month = 1 ∧ e.year = s.year + 1) ∨
     (s.month ≠ 12 ∧ e.month = s.month + 1 ∧ e.year = s.year))

/-- The shape `YYYY-MM-DD`: ten characters, digits except for the two dashes. -/
def isYYYYMMDD (s : String) : Bool :=
  match s.data with
  | [y1, y2, y3, y4, h1, m1, m2, h2, d1, d2] =>
    y1.isDigit && y2.isDigit && y3.isDigit && y4.isDigit && h1 == '-' &&
    m1.isDigit && m2.isDigit && h2 == '-' && d1.isDigit && d2.isDigit
  | _ => false

/-- The number written by a non-empty string of decimal digits. -/
def decimalValue (s : String) : Option Nat :=
  if s.data ≠ [] ∧ s.data.all Char.isDigit then
    some (s.data.foldl (fun acc c => 10 * acc + (c.toNat - 48)) 0)
  else
    none

/-- The period of the spec's cases A, B and C as a pair of dates (not yet rendered). -/
def resolvePeriod (d : Time) : Time × Time :=
  if 10 ≤ d.day ∧ d.day ≤ 24 then
    (⟨d.year, d.month, 10⟩, ⟨d.year, d.month, 24⟩)
  else if d.day ≤ 9 then
    (if d.month = 1 then ⟨d.year - 1, 12, 25⟩ else ⟨d.year, d.month - 1, 25⟩,
     ⟨d.year, d.month, 9⟩)
  else
    (⟨d.year, d.month, 25⟩,
     if d.month = 12 then ⟨d.year + 1, 1, 9⟩ else ⟨d.year, d.month + 1, 9⟩)

/-! ## The tracking API client -/

/-- Source constant `trackerURL` (main.go 17). -/
def trackerURL : String := "https://tracker-api.toptal.com"

/-- Source type `TrackerSessionsRequest` (main.go 19-22). -/
structure TrackerSessionsRequest where
  email : String
  password : String

/-- Source type `TrackerSessionsResponse` (main.go 24-26). -/
structure TrackerSessionsResponse where
  accessToken : String

/-- Source type `TrackerDate` (main.go 45-48). -/
structure TrackerDate where
  date : String
  seconds : Int

/-- Source type `TrackerEntity` (main.go 37-41). -/
structure TrackerEntity where
  id : Int
  label : String
  dates : List TrackerDate

/-- Source type `TrackerFilters` (main.go 32-35). -/
structure TrackerFilters where
  projects : List TrackerEntity
  workers : List TrackerEntity

/-- Source type `TrackerFiltersResponse` (main.go 28-30); the pointer field may be nil. -/
structure TrackerFiltersResponse where
  filters : Option TrackerFilters

/-- Source type `TrackerReportData` (main.go 60-63). -/
structure TrackerReportData where
  data : List TrackerEntity
  totalSeconds : Int

/-- Source type `TrackerChartReports` (main.go 56-58). -/
structure TrackerChartReports where
  projects : Option TrackerReportData

/-- Source type `TrackerChartResponse` (main.go 52-54). -/
structure TrackerChartResponse where
  reports : Option TrackerChartReports

/-! ### Library: `url.Values`, `http.Header` and query encoding -/

/-- Go `url.Values` and `http.Header`: each key with its list of values. -/
structure Values where
  entries : List (String × List String)

/-- The empty map, as returned by `req.URL.Query()` for a URL without a query. -/
def Values.empty : Values := ⟨[]⟩

/-- Go `Get`: the first value of the key, or the empty string. -/
def Values.get (v : Values) (key : String) : String :=
  match v.entries.lookup key with
  | some (x :: _) => x
  | _ => ""

/-- Go `Set`: the key's values are replaced by the single value. -/
def Values.set (v : Values) (key value : String) : Values :=
  if v.entries.any (fun p => p.1 == key) then
    ⟨v.entries.map (fun p => if p.1 == key then (key, [value]) else p)⟩
  else
    ⟨v.entries ++ [(key, [value])]⟩

/-- Go `Add`: the value is appended to the key's values. -/
def Values.add (v : Values) (key value : String) : Values :=
  if v.entries.any (fun p => p.1 == key) then
    ⟨v.entries.map (fun p => if p.1 == key then (key, p.2 ++ [value]) else p)⟩
  else
    ⟨v.entries ++ [(key, [value])]⟩

/-- Upper-case hexadecimal digit. -/
def upperHex (n : Nat) : Char :=
  if n < 10 then Char.ofNat (48 + n) else Char.ofNat (55 + n)

/-- One byte under `url.QueryEscape`: letters, digits and `-_.~` are kept, a space becomes
`+`, every other byte becomes `%XX`. -/
def escapeByte (b : Nat) : List Char :=
  if (97 ≤ b ∧ b ≤ 122) ∨ (65 ≤ b ∧ b ≤ 90) ∨ (48 ≤ b ∧ b ≤ 57) ∨
      b = 45 ∨ b = 95 ∨ b = 46 ∨ b = 126 then
    [Char.ofNat b]
  else if b = 32 then
    ['+']
  else
    ['%', upperHex (b / 16), upperHex (b % 16)]

/-- Go `url.QueryEscape`, over the UTF-8 bytes of the string. -/
def queryEscape (s : String) : String :=
  String.mk ((s.toUTF8.toList.map (fun b => escapeByte b.toNat)).flatten)

/-- Insertion of an entry into a list sorted by key. -/
def insertByKey (p : String × List String) :
    List (String × List String) → List (String × List String)
  | [] => [p]
  | q :: rest => if q.1 < p.1 then q :: insertByKey p rest else p :: q :: rest

/-- Go `Values.Encode`: keys in sorted order, every value of a key as `key=value`, both
escaped, joined by `&`. -/
def Values.encode (v : Values) : String :=
  "&".intercalate
    (((v.entries.foldr insertByKey []).map
      (fun p => p.2.map (fun x => queryEscape p.1 ++ "=" ++ queryEscape x))).flatten)

/-! ### Library: requests, responses and `Client.Do` -/

/-- An outgoing `http.Request`: method, URL without its query, `URL.RawQuery`, headers and
body. -/
structure Request where
  method : String
  url : String
  rawQuery : String
  header : Values
  body : Option String

/-- The part of an `http.Response` that the client and the program read. -/
structure Response where
  statusCode : Int
  header : Values
  body : String

/-- An observable step: a request put on the wire, or a body handed to the JSON decoder. -/
inductive Event where
  | sent (req : Request)
  | decoded (body : String)

/-- What lies outside the program. `serve` is one round trip on the wire: the server's answer
(or a transport failure, deadline included) to a request, given everything that happened
before. `resolveLocation` is `req.URL.Parse(loc)`, `redirectHeader` gives the headers the
client puts on a redirected request, and `urlError` the message of the `url.Error` that `Do`
returns for a cause, from the first and the current request. Go errors are carried as their
message. -/
structure World where
  getenv : String → String
  marshal : TrackerSessionsRequest → Except String String
  newRequest : String → String → Option String → Except String Request
  serve : List Event → Request → Except String Response
  resolveLocation : Request → String → Except String (String × String)
  redirectHeader : Request → Request → Values
  urlError : Request → Request → String → String
  decodeSessions : String → Except String TrackerSessionsResponse
  decodeFilters : String → Except String TrackerFiltersResponse
  decodeChart : String → Except String TrackerChartResponse

/-- One round trip: the request is put on the wire and recorded. -/
def send (w : World) (t : List Event) (req : Request) :
    Except String Response × List Event :=
  (w.serve t req, t ++ [Event.sent req])

/-- Decoding of a response body with `json.NewDecoder(res.Body).Decode`, recorded. -/
def decodeBody {α : Type} (f : String → Except String α) (t : List Event) (body : String) :
    Except String α × List Event :=
  (f body, t ++ [Event.decoded body])

/-- Go `redirectBehavior` of net/http: for 301, 302 and 303 the redirect is followed without
the body, with `GET` unless the method is `GET` or `HEAD`; for 307 and 308 it is followed
with the same method and the body (the requests of this program have no body or a body that
can be read again). The result is the next method and whether the body is kept. -/
def redirectBehavior (reqMethod : String) (statusCode : Int) : Option (String × Bool) :=
  if statusCode = 301 ∨ statusCode = 302 ∨ statusCode = 303 then
    some (if reqMethod ≠ "GET" ∧ reqMethod ≠ "HEAD" then "GET" else reqMethod, false)
  else if statusCode = 307 ∨ statusCode = 308 then
    some (reqMethod, true)
  else
    none

/-- Whether the zero-value `http.Client` follows the response: a redirect status with a
non-empty `Location`. -/
def followsRedirect (reqMethod : String) (res : Response) : Bool :=
  (redirectBehavior reqMethod res.statusCode).isSome && res.header.get "Location" != ""

/-- The loop of `Client.do` of net/http for a zero-value client. `fuel` is the number of
requests that may still be sent; `ireq` is the first request. The default redirect policy
stops with an error once ten requests have been sent. -/
def doLoop (w : World) : Nat → Request → Request → List Event →
    Except String Response × List Event
  | 0, ireq, req, t => (.error (w.urlError ireq req "stopped after 10 redirects"), t)
  | fuel + 1, ireq, req, t =>
    match send w t req with
    | (.error e, t1) => (.error (w.urlError ireq req e), t1)
    | (.ok res, t1) =>
      match redirectBehavior req.method res.statusCode with
      | none => (.ok res, t1)
      | some (redirectMethod, includeBody) =>
        if res.header.get "Location" = "" then
          (.ok res, t1)
        else
          match w.resolveLocation req (res.header.get "Location") with
          | .error e => (.error (w.urlError ireq req e), t1)
          | .ok (u, q) =>
            let next : Request :=
              { method := redirectMethod, url := u, rawQuery := q,
                header := w.redirectHeader ireq req,
                body := if includeBody then ireq.body else none }
            doLoop w fuel ireq next t1

/-- The call `(&http.Client{}).Do(req)` of the source: a zero-value client, which follows
redirects, at most ten requests on the wire. -/
def clientDo (w : World) (t : List Event) (req : Request) :
    Except String Response × List Event :=
  doLoop w 10 req req t

/-! ### The three operations -/

/-- The Go return pair `(value, error)` of an operation, `err = none` for a nil error,
together with the record of events after the operation. -/
structure Run (α : Type) where
  value : α
  err : Option String
  trace : List Event

/-- Message of `errors.Wrap(err, msg)`. -/
def wrap (err msg : String) : String := msg ++ ": " ++ err

/-- The request `getAccessToken` builds before calling `Do` (main.go 105-128). -/
def sessionsRequest (w : World) : Except String Request :=
  match w.marshal ⟨w.getenv "EMAIL", w.getenv "PASSWORD"⟩ with
  | .error e => .error (wrap e "failed to marshal request data")
  | .ok reqDataBuf =>
    match w.newRequest "POST" (trackerURL ++ "/sessions") (some reqDataBuf) with
    | .error e => .error (wrap e "failed to create new request")
    | .ok req =>
      .ok { req with header := req.header.set "Content-Type" "application/json" }

/-- Source `getAccessToken` (main.go 104-150), from the record `t` of earlier events. -/
def getAccessToken (w : World) (t : List Event) : Run String :=
  match sessionsRequest w with
  | .error e => ⟨"", some e, t⟩
  | .ok req =>
    match clientDo w t req with
    | (.error e, t1) => ⟨"", some (wrap e "failed to do request"), t1⟩
    | (.ok res, t1) =>
      if res.statusCode ≠ 201 then
        ⟨"", some ("incorrect response status code: " ++ fmtD res.statusCode), t1⟩
      else
        match decodeBody w.decodeSessions t1 res.body with
        | (.error e, t2) => ⟨"", some (wrap e "failed to decode response data"), t2⟩
        | (.ok resData, t2) => ⟨resData.accessToken, none, t2⟩

/-- The request `getFilters` builds before calling `Do` (main.go 153-161). The URL literal
has no query, so `req.URL.Query()` is the empty map. -/
def filtersRequest (w : World) (accessToken : String) : Except String Request :=
  match w.newRequest "GET" (trackerURL ++ "/reports/filters") none with
  | .error e => .error (wrap e "failed to create new request")
  | .ok req =>
    let reqQuery := Values.empty.set "access_token" accessToken
    .ok { req with rawQuery := reqQuery.encode }

/-- Source `getFilters` (main.go 152-183), from the record `t` of earlier events. -/
def getFilters (w : World) (t : List Event) (accessToken : String) :
    Run (Option TrackerFilters) :=
  match filtersRequest w accessToken with
  | .error e => ⟨none, some e, t⟩
  | .ok req =>
    match clientDo w t req with
    | (.error e, t1) => ⟨none, some (wrap e "failed to do request"), t1⟩
    | (.ok res, t1) =>
      if res.statusCode ≠ 200 then
        ⟨none, some ("incorrect response status code: " ++ fmtD res.statusCode), t1⟩
      else
        match decodeBody w.decodeFilters t1 res.body with
        | (.error e, t2) => ⟨none, some (wrap e "failed to decode response data"), t2⟩
        | (.ok resData, t2) => ⟨resData.filters, none, t2⟩

/-- The request `getReport` builds before calling `Do` (main.go 186-202); `strconv.Itoa`
renders like `%d`. The URL literal has no query, so `req.URL.Query()` is the empty map. The
`filters` pointer is taken non-nil. -/
def reportRequest (w : World) (filters : TrackerFilters)
    (startDate endDate accessToken : String) : Except String Request :=
  match w.newRequest "GET" (trackerURL ++ "/reports/chart") none with
  | .error e => .error (wrap e "failed to create new request")
  | .ok req =>
    let q0 := Values.empty.set "access_token" accessToken
    let q1 := q0.set "start_date" startDate
    let q2 := q1.set "end_date" endDate
    let q3 := filters.projects.foldl (fun q p => q.add "project_ids[]" (fmtD p.id)) q2
    let q4 := filters.workers.foldl (fun q x => q.add "worker_ids[]" (fmtD x.id)) q3
    .ok { req with rawQuery := q4.encode }

/-- Source `getReport` (main.go 185-224), from the record `t` of earlier events. -/
def getReport (w : World) (t : List Event) (filters : TrackerFilters)
    (startDate endDate accessToken : String) : Run (Option TrackerChartResponse) :=
  match reportRequest w filters startDate endDate accessToken with
  | .error e => ⟨none, some e, t⟩
  | .ok req =>
    match clientDo w t req with
    | (.error e, t1) => ⟨none, some (wrap e "failed to do request"), t1⟩
    | (.ok res, t1) =>
      if res.statusCode ≠ 200 then
        ⟨none, some ("incorrect response status code: " ++ fmtD res.statusCode), t1⟩
      else
        match decodeBody w.decodeChart t1 res.body with
        | (.error e, t2) => ⟨none, some (wrap e "failed to decode response data"), t2⟩
        | (.ok resData, t2) => ⟨some resData, none, t2⟩

/-- Number of requests put on the wire in a record of events. -/
def sentCount : List Event → Nat
  | [] => 0
  | Event.sent _ :: rest => sentCount rest + 1
  | Event.decoded _ :: rest => sentCount rest

/-- Number of bodies handed to the JSON decoder in a record of events. -/
def decodedCount : List Event → Nat
  | [] => 0
  | Event.sent _ :: rest => decodedCount rest
  | Event.decoded _ :: rest => decodedCount rest + 1

/-- A sample world: every request is answered with status 500 and a body that would decode. -/
def failingWorld : World where
  getenv := fun _ => "x"
  marshal := fun r => .ok (r.email ++ r.password)
  newRequest := fun m u b => .ok ⟨m, u, "", Values.empty, b⟩
  serve := fun _ _ => .ok ⟨500, Values.empty, "body"⟩
  resolveLocation := fun _ loc => .ok (loc, "")
  redirectHeader := fun ireq _ => ireq.header
  urlError := fun _ _ e => e
  decodeSessions := fun _ => .ok ⟨"token"⟩
  decodeFilters := fun _ => .ok ⟨some ⟨[], []⟩⟩
  decodeChart := fun _ => .ok ⟨none⟩

/-- A sample world: the first request on the wire is answered `302 Found` with a `Location`,
every later one `201 Created` with a body that decodes to a token. -/
def redirectWorld : World where
  getenv := fun _ => "x"
  marshal := fun r => .ok (r.email ++ r.password)
  newRequest := fun m u b => .ok ⟨m, u, "", Values.empty, b⟩
  serve := fun t _ =>
    match t with
    | [] => .ok ⟨302, Values.empty.set "Location" "https://tracker-api.toptal.com/v2/sessions", ""⟩
    | _ :: _ => .ok ⟨201, Values.empty, "body"⟩
  resolveLocation := fun _ loc => .ok (loc, "")
  redirectHeader := fun ireq _ => ireq.header
  urlError := fun _ _ e => e
  decodeSessions := fun _ => .ok ⟨"token"⟩
  decodeFilters := fun _ => .ok ⟨some ⟨[], []⟩⟩
  decodeChart := fun _ => .ok ⟨none⟩

/-! ## Decimal rendering -/

theorem toDigitsCore_acc (fuel : Nat) : ∀ (n : Nat) (ds : List Char),
    Nat.toDigitsCore 10 fuel n ds = Nat.toDigitsCore 10 fuel n [] ++ ds := by
  induction fuel with
  | zero => intro n ds; simp [Nat.toDigitsCore]
  | succ k ih =>
    intro n ds
    simp only [Nat.toDigitsCore]
    by_cases h : n / 10 = 0
    · simp [h]
    · simp only [h, if_false]
      rw [ih (n / 10) (Nat.digitChar (n % 10) :: ds), ih (n / 10) [Nat.digitChar (n % 10)]]
      simp

theorem toDigitsCore_fuel (f1 : Nat) : ∀ (f2 n : Nat), n < f1 → n < f2 →
    Nat.toDigitsCore 10 f1 n [] = Nat.toDigitsCore 10 f2 n [] := by
  induction f1 with
  | zero => intro f2 n h; omega
  | succ k ih =>
    intro f2 n h1 h2
    cases f2 with
    | zero => omega
    | succ j =>
      simp only [Nat.toDigitsCore]
      by_cases h : n / 10 = 0
      · simp [h]
      · simp only [h, if_false]
        rw [toDigitsCore_acc k, toDigitsCore_acc j]
        have hk : n / 10 < k := by omega
        have hj : n / 10 < j := by omega
        rw [ih j (n / 10) hk hj]

theorem toDigits_small (n : Nat) (h : n < 10) : Nat.toDigits 10 n = [Nat.digitChar n] := by
  have h0 : n / 10 = 0 := by omega
  have h1 : n % 10 = n := by omega
  simp [Nat.toDigits, Nat.toDigitsCore, h0, h1]

theorem toDigits_step (n : Nat) (h : 10 ≤ n) :
    Nat.toDigits 10 n = Nat.toDigits 10 (n / 10) ++ [Nat.digitChar (n % 10)] := by
  have h0 : ¬ n / 10 = 0 := by omega
  have e1 : Nat.toDigits 10 n = Nat.toDigitsCore 10 (n + 1) n [] := rfl
  rw [e1]
  simp only [Nat.toDigitsCore, h0, if_false]
  rw [toDigitsCore_acc n, toDigitsCore_fuel n (n / 10 + 1) (n / 10) (by omega) (by omega)]
  rfl

theorem digitChar_inj : ∀ a < 10, ∀ b < 10, Nat.digitChar a = Nat.digitChar b → a = b := by
  decide

theorem digitChar_ne_dash : ∀ a < 10, Nat.digitChar a ≠ '-' := by decide

theorem toDigits_ne_nil (n : Nat) : Nat.toDigits 10 n ≠ [] := by
  by_cases h : n < 10
  · simp [toDigits_small n h]
  · rw [toDigits_step n (by omega)]; simp

theorem toDigits_inj : ∀ (n m : Nat), Nat.toDigits 10 n = Nat.toDigits 10 m → n = m := by
  intro n
  induction n using Nat.strong_induction_on with
  | _ n ih =>
    intro m hnm
    by_cases hn : n < 10
    · by_cases hm : m < 10
      · rw [toDigits_small n hn, toDigits_small m hm] at hnm
        exact digitChar_inj n hn m hm (by simpa using hnm)
      · rw [toDigits_small n hn, toDigits_step m (by omega)] at hnm
        have hl := congrArg List.length hnm
        have := List.length_pos.mpr (toDigits_ne_nil (m / 10))
        simp only [List.length_append, List.length_singleton, List.length_cons,
          List.length_nil] at hl
        omega
    · by_cases hm : m < 10
      · rw [toDigits_small m hm, toDigits_step n (by omega)] at hnm
        have hl := congrArg List.length hnm
        have := List.length_pos.mpr (toDigits_ne_nil (n / 10))
        simp only [List.length_append, List.length_singleton, List.length_cons,
          List.length_nil] at hl
        omega
      · rw [toDigits_step n (by omega), toDigits_step m (by omega)] at hnm
        have h2 := List.append_inj' hnm rfl
        have hq := ih (n / 10) (by omega) (m / 10) h2.1
        have hr := digitChar_inj (n % 10) (by omega) (m % 10) (by omega) (by simpa using h2.2)
        omega

theorem toDigits_head (n : Nat) : ∃ k, k < 10 ∧ ∃ t, Nat.toDigits 10 n = Nat.digitChar k :: t := by
  induction n using Nat.strong_induction_on with
  | _ n ih =>
    by_cases hn : n < 10
    · exact ⟨n, hn, [], toDigits_small n hn⟩
    · obtain ⟨k, hk, t, ht⟩ := ih (n / 10) (by omega)
      refine ⟨k, hk, t ++ [Nat.digitChar (n % 10)], ?_⟩
      rw [toDigits_step n (by omega), ht]; simp

/-! ## Rendered dates -/

theorem repr_inj (n m : Nat) (h : Nat.repr n = Nat.repr m) : n = m := by
  apply toDigits_inj
  have := congrArg String.data h
  simpa [Nat.repr, List.asString] using this

theorem fmtD_inj (a b : Int) (h : fmtD a = fmtD b) : a = b := by
  cases a with
  | ofNat n =>
    cases b with
    | ofNat m => simp only [fmtD] at h; rw [repr_inj n m h]
    | negSucc m =>
      exfalso
      simp only [fmtD] at h
      have h2 := congrArg String.data h
      obtain ⟨k, hk, t, ht⟩ := toDigits_head n
      simp [Nat.repr, List.asString, ht] at h2
      exact digitChar_ne_dash k hk h2.1
  | negSucc n =>
    cases b with
    | ofNat m =>
      exfalso
      simp only [fmtD] at h
      have h2 := congrArg String.data h
      obtain ⟨k, hk, t, ht⟩ := toDigits_head m
      simp [Nat.repr, List.asString, ht] at h2
      exact digitChar_ne_dash k hk h2.1.symm
    | negSucc m =>
      simp only [fmtD] at h
      have h2 := congrArg String.data h
      simp [Nat.repr, List.asString] at h2
      have := toDigits_inj _ _ h2
      have : n = m := by omega
      rw [this]

theorem isoDate_data (d : Time) : (isoDate d).data = (fmtD d.year).data ++
    ['-', Nat.digitChar (d.month.toNat / 10), Nat.digitChar (d.month.toNat % 10), '-',
     Nat.digitChar (d.day.toNat / 10), Nat.digitChar (d.day.toNat % 10)] := by
  simp [isoDate, twoDigits]

theorem isoDate_inj (a b : Time)
    (ha : 0 ≤ a.month ∧ a.month < 100 ∧ 0 ≤ a.day ∧ a.day < 100)
    (hb : 0 ≤ b.month ∧ b.month < 100 ∧ 0 ≤ b.day ∧ b.day < 100)
    (h : isoDate a = isoDate b) : a = b := by
  have h2 := congrArg String.data h
  rw [isoDate_data, isoDate_data] at h2
  have h3 := List.append_inj' h2 rfl
  have hy := fmtD_inj a.year b.year (String.ext h3.1)
  have h4 := h3.2
  simp only [List.cons.injEq, and_true, true_and] at h4
  obtain ⟨m1, m2, d1, d2⟩ := h4
  have e1 := digitChar_inj _ (by omega) _ (by omega) m1
  have e2 := digitChar_inj _ (by omega) _ (by omega) m2
  have e3 := digitChar_inj _ (by omega) _ (by omega) d1
  have e4 := digitChar_inj _ (by omega) _ (by omega) d2
  cases a; cases b
  simp only [Time.mk.injEq] at *
  refine ⟨hy, ?_, ?_⟩ <;> omega

theorem prepareMonth_eq : ∀ m : Int, 1 ≤ m → m ≤ 12 → prepareMonth m = twoDigits m := by
  intro m h1 h2
  interval_cases m <;> decide

theorem fmtD_25 : fmtD 25 = twoDigits 25 := by decide

theorem dash_09 (x : String) : x ++ "-0" ++ fmtD 9 = x ++ "-" ++ twoDigits 9 := by
  have e1 : fmtD 9 = "9" := by decide
  have e2 : twoDigits 9 = "09" := by decide
  rw [e1, e2]
  apply String.ext
  simp

theorem getDates_eq_resolvePeriod (d : Time) (hm : 1 ≤ d.month ∧ d.month ≤ 12) :
    getDates d = some (isoDate (resolvePeriod d).1, isoDate (resolvePeriod d).2) := by
  obtain ⟨h1, h2⟩ := hm
  unfold getDates resolvePeriod
  by_cases hA : d.day ≥ 10 ∧ d.day ≤ 24
  · have hA2 : 10 ≤ d.day ∧ d.day ≤ 24 := hA
    simp only [if_pos hA, if_pos hA2, isoDate, prepareMonth_eq d.month h1 h2]
    rfl
  · have hA2 : ¬ (10 ≤ d.day ∧ d.day ≤ 24) := hA
    simp only [if_neg hA, if_neg hA2]
    by_cases hB : d.day ≤ 9
    · simp only [if_pos hB]
      by_cases hJ : d.month = 1
      · simp only [if_pos hJ, isoDate, prepareMonth_eq d.month h1 h2,
          prepareMonth_eq 12 (by omega) (by omega), fmtD_25, dash_09]
      · simp only [if_neg hJ, isoDate, prepareMonth_eq d.month h1 h2,
          prepareMonth_eq (d.month - 1) (by omega) (by omega), fmtD_25, dash_09]
    · have hC : d.day ≥ 25 := by omega
      simp only [if_neg hB, if_pos hC]
      by_cases hD : d.month = 12
      · simp only [if_pos hD, isoDate, prepareMonth_eq d.month h1 h2,
          prepareMonth_eq 1 (by omega) (by omega), fmtD_25, dash_09]
      · simp only [if_neg hD, isoDate, prepareMonth_eq d.month h1 h2,
          prepareMonth_eq (d.month + 1) (by omega) (by omega), fmtD_25, dash_09]

/-! ## Arithmetic of periods -/

theorem daysIn_bounds (y m : Int) : 28 ≤ daysIn y m ∧ daysIn y m ≤ 31 := by
  unfold daysIn
  split_ifs <;> omega

theorem resolvePeriod_valid (d : Time) (hm : 1 ≤ d.month ∧ d.month ≤ 12) :
    (resolvePeriod d).1.Valid ∧ (resolvePeriod d).2.Valid := by
  obtain ⟨y, m, dd⟩ := d
  simp only at hm
  unfold resolvePeriod Time.Valid
  simp only
  split_ifs <;> simp only <;> refine ⟨⟨?_, ?_, ?_, ?_⟩, ?_, ?_, ?_, ?_⟩ <;>
    first
      | omega
      | exact le_trans (by decide) (daysIn_bounds _ _).1

theorem resolvePeriod_mem (d : Time) (hv : d.Valid) :
    (resolvePeriod d).1.le d ∧ d.le (resolvePeriod d).2 := by
  obtain ⟨y, m, dd⟩ := d
  unfold Time.Valid at hv
  simp only at hv
  unfold resolvePeriod Time.le
  simp only
  split_ifs <;> dsimp only <;> omega

theorem resolvePeriod_of_mem (d t : Time) (hd : 1 ≤ d.month ∧ d.month ≤ 12)
    (ht : 1 ≤ t.month ∧ t.month ≤ 12)
    (h : (resolvePeriod d).1.le t ∧ t.le (resolvePeriod d).2) :
    resolvePeriod t = resolvePeriod d := by
  obtain ⟨y, m, dd⟩ := d
  obtain ⟨y2, m2, dd2⟩ := t
  simp only at hd ht
  revert h
  unfold resolvePeriod Time.le
  simp only
  split_ifs <;> simp only [Prod.mk.injEq, Time.mk.injEq] <;> intro h <;>
    refine ⟨⟨?_, ?_, ?_⟩, ?_, ?_, ?_⟩ <;> first | trivial | omega

theorem resolvePeriod_shape (d : Time) (hm : 1 ≤ d.month ∧ d.month ≤ 12) :
    (resolvePeriod d).1.le (resolvePeriod d).2 ∧
    ((midWindow (resolvePeriod d).1 (resolvePeriod d).2 ∧
        ¬ crossWindow (resolvePeriod d).1 (resolvePeriod d).2) ∨
     (¬ midWindow (resolvePeriod d).1 (resolvePeriod d).2 ∧
        crossWindow (resolvePeriod d).1 (resolvePeriod d).2)) := by
  obtain ⟨y, m, dd⟩ := d
  simp only at hm
  unfold resolvePeriod Time.le midWindow crossWindow
  simp only
  split_ifs <;> dsimp only <;> omega

theorem resolvePeriod_bounds (d : Time) (hm : 1 ≤ d.month ∧ d.month ≤ 12) :
    (0 ≤ (resolvePeriod d).1.month ∧ (resolvePeriod d).1.month < 100 ∧
      0 ≤ (resolvePeriod d).1.day ∧ (resolvePeriod d).1.day < 100) ∧
    (0 ≤ (resolvePeriod d).2.month ∧ (resolvePeriod d).2.month < 100 ∧
      0 ≤ (resolvePeriod d).2.day ∧ (resolvePeriod d).2.day < 100) := by
  obtain ⟨y, m, dd⟩ := d
  simp only at hm
  unfold resolvePeriod
  simp only
  split_ifs <;> dsimp only <;> omega

theorem valid_bounds (d : Time) (hv : d.Valid) :
    0 ≤ d.month ∧ d.month < 100 ∧ 0 ≤ d.day ∧ d.day < 100 := by
  have hb := daysIn_bounds d.year d.month
  unfold Time.Valid at hv
  omega

theorem getDates_denotes (d s e : Time) (hm : 1 ≤ d.month ∧ d.month ≤ 12)
    (hs : s.Valid) (he : e.Valid) (h : getDates d = some (isoDate s, isoDate e)) :
    s = (resolvePeriod d).1 ∧ e = (resolvePeriod d).2 := by
  rw [getDates_eq_resolvePeriod d hm] at h
  simp only [Option.some.injEq, Prod.mk.injEq] at h
  have hb := resolvePeriod_bounds d hm
  exact ⟨(isoDate_inj _ _ hb.1 (valid_bounds s hs) h.1).symm,
         (isoDate_inj _ _ hb.2 (valid_bounds e he) h.2).symm⟩

theorem digitChar_isDigit : ∀ k < 10, (Nat.digitChar k).isDigit = true := by decide

theorem fmtD_four (y : Int) (h1 : 1000 ≤ y) (h2 : y ≤ 9999) :
    (fmtD y).data = [Nat.digitChar (y.toNat / 1000), Nat.digitChar (y.toNat / 100 % 10),
      Nat.digitChar (y.toNat / 10 % 10), Nat.digitChar (y.toNat % 10)] := by
  obtain ⟨n, rfl⟩ := Int.eq_ofNat_of_zero_le (by omega : 0 ≤ y)
  have hn1 : 1000 ≤ n := by omega
  have hn2 : n ≤ 9999 := by omega
  show (Nat.repr n).data = _
  simp only [Nat.repr, List.asString, Int.toNat_ofNat]
  rw [toDigits_step n (by omega), toDigits_step (n / 10) (by omega),
    toDigits_step (n / 10 / 10) (by omega), toDigits_small (n / 10 / 10 / 10) (by omega)]
  have e1 : n / 10 / 10 / 10 = n / 1000 := by omega
  have e2 : n / 10 / 10 % 10 = n / 100 % 10 := by omega
  simp [e1, e2]

theorem isoDate_shape (d : Time) (hy : 1000 ≤ d.year ∧ d.year ≤ 9999)
    (hb : 0 ≤ d.month ∧ d.month < 100 ∧ 0 ≤ d.day ∧ d.day < 100) :
    isYYYYMMDD (isoDate d) = true ∧ (isoDate d).length = 10 := by
  have hd := isoDate_data d
  rw [fmtD_four d.year hy.1 hy.2] at hd
  constructor
  · unfold isYYYYMMDD
    rw [hd]
    simp only [List.cons_append, List.nil_append]
    rw [digitChar_isDigit _ (by omega), digitChar_isDigit _ (by omega),
      digitChar_isDigit _ (by omega), digitChar_isDigit _ (by omega),
      digitChar_isDigit _ (by omega), digitChar_isDigit _ (by omega),
      digitChar_isDigit _ (by omega), digitChar_isDigit _ (by omega)]
    decide
  · show (isoDate d).data.length = 10
    rw [hd]
    rfl

/-! ## Period resolution: the properties -/

theorem resolvePeriod_years (d : Time) (hy : 1000 ≤ d.year ∧ d.year ≤ 9999)
    (hlo : ¬ (d.year = 1000 ∧ d.month = 1 ∧ d.day ≤ 9))
    (hhi : ¬ (d.year = 9999 ∧ d.month = 12 ∧ 25 ≤ d.day)) :
    (1000 ≤ (resolvePeriod d).1.year ∧ (resolvePeriod d).1.year ≤ 9999) ∧
    (1000 ≤ (resolvePeriod d).2.year ∧ (resolvePeriod d).2.year ≤ 9999) := by
  obtain ⟨y, m, dd⟩ := d
  simp only at hy hlo hhi
  unfold resolvePeriod
  simp only
  split_ifs <;> dsimp only <;> omega

theorem dash_two (x : String) (n : Int) (lit : String) (h : "-" ++ twoDigits n = lit) :
    x ++ "-" ++ twoDigits n = x ++ lit := by
  rw [String.append_assoc, h]

theorem dash_month (x : String) (n : Int) (lit : String) (h : "-" ++ twoDigits n = lit) :
    x ++ "-" ++ twoDigits n ++ "-" ++ twoDigits 25 = x ++ lit ++ "-25" := by
  rw [dash_two _ 25 "-25" (by decide), dash_two x n lit h]

/-- C1: for a valid date whose day is in 10..24, `getDates` returns `Y-MM-10` and `Y-MM-24`,
with `Y` the decimal rendering of the input's year and `MM` its month on two digits. -/
theorem getDates_mid_window (date : Time) (hv : date.Valid)
    (hd : 10 ≤ date.day ∧ date.day ≤ 24) :
    getDates date = some (fmtD date.year ++ "-" ++ twoDigits date.month ++ "-10",
                          fmtD date.year ++ "-" ++ twoDigits date.month ++ "-24") := by
  rw [getDates_eq_resolvePeriod date ⟨hv.1, hv.2.1⟩]
  unfold resolvePeriod
  rw [if_pos hd]
  simp only [isoDate]
  rw [dash_two _ 10 "-10" (by decide), dash_two _ 24 "-24" (by decide)]

/-- Witness of C1: the repository's test date 2021-02-11. -/
theorem getDates_mid_window_witness :
    getDates ⟨2021, 2, 11⟩ = some ("2021-02-10", "2021-02-24") :=
  getDates_mid_window ⟨2021, 2, 11⟩ (by decide) (by decide)

/-- C2: for a valid date whose day is in 1..9, `getDates` returns as start the 25th of the
previous month (December of the previous year when the month is January) and as end the
9th, rendered `09`, of the input's own month and year. -/
theorem getDates_low_window (date : Time) (hv : date.Valid)
    (hd : 1 ≤ date.day ∧ date.day ≤ 9) :
    getDates date =
      some (if date.month = 1 then fmtD (date.year - 1) ++ "-12-25"
            else fmtD date.year ++ "-" ++ twoDigits (date.month - 1) ++ "-25",
            fmtD date.year ++ "-" ++ twoDigits date.month ++ "-09") := by
  rw [getDates_eq_resolvePeriod date ⟨hv.1, hv.2.1⟩]
  unfold resolvePeriod
  rw [if_neg (by omega), if_pos hd.2]
  by_cases hJ : date.month = 1
  · simp only [if_pos hJ, isoDate]
    rw [dash_month _ 12 "-12" (by decide), dash_two _ 9 "-09" (by decide),
      String.append_assoc _ "-12" "-25"]
    rfl
  · simp only [if_neg hJ, isoDate]
    rw [dash_two _ 25 "-25" (by decide), dash_two _ 9 "-09" (by decide)]

/-- Witness of C2: 2021-02-05 and the January rollover 2021-01-05. -/
theorem getDates_low_window_witness :
    getDates ⟨2021, 2, 5⟩ = some ("2021-01-25", "2021-02-09") ∧
    getDates ⟨2021, 1, 5⟩ = some ("2020-12-25", "2021-01-09") :=
  ⟨getDates_low_window ⟨2021, 2, 5⟩ (by decide) (by decide),
   getDates_low_window ⟨2021, 1, 5⟩ (by decide) (by decide)⟩

/-- C3: for a valid date whose day is 25 or later, `getDates` returns as start the 25th of the
input's own month and year and as end the 9th, rendered `09`, of the next month (January of
the next year when the month is December). -/
theorem getDates_high_window (date : Time) (hv : date.Valid) (hd : 25 ≤ date.day) :
    getDates date =
      some (fmtD date.year ++ "-" ++ twoDigits date.month ++ "-25",
            if date.month = 12 then fmtD (date.year + 1) ++ "-01-09"
            else fmtD date.year ++ "-" ++ twoDigits (date.month + 1) ++ "-09") := by
  rw [getDates_eq_resolvePeriod date ⟨hv.1, hv.2.1⟩]
  unfold resolvePeriod
  rw [if_neg (by omega), if_neg (by omega)]
  by_cases hD : date.month = 12
  · simp only [if_pos hD, isoDate]
    rw [dash_two _ 25 "-25" (by decide), dash_two _ 9 "-09" (by decide),
      dash_two _ 1 "-01" (by decide), String.append_assoc _ "-01" "-09"]
    rfl
  · simp only [if_neg hD, isoDate]
    rw [dash_two _ 25 "-25" (by decide), dash_two _ 9 "-09" (by decide)]

/-- Witness of C3: 2021-02-26 and the December rollover 2021-12-26. -/
theorem getDates_high_window_witness :
    getDates ⟨2021, 2, 26⟩ = some ("2021-02-25", "2021-03-09") ∧
    getDates ⟨2021, 12, 26⟩ = some ("2021-12-25", "2022-01-09") :=
  ⟨getDates_high_window ⟨2021, 2, 26⟩ (by decide) (by decide),
   getDates_high_window ⟨2021, 12, 26⟩ (by decide) (by decide)⟩

/-- C4: boundary continuity. For every year and month, the end date returned for the 9th is
the calendar day just before the start date returned for the 10th, and the end date returned
for the 24th is the calendar day just before the start date returned for the 25th. -/
theorem getDates_boundary_contiguous (y m : Int) (hm : 1 ≤ m ∧ m ≤ 12) :
    ∃ e9 s10 e24 s25 : Time,
      (e9.Valid ∧ s10.Valid ∧ e24.Valid ∧ s25.Valid) ∧
      (getDates ⟨y, m, 9⟩).map Prod.snd = some (isoDate e9) ∧
      (getDates ⟨y, m, 10⟩).map Prod.fst = some (isoDate s10) ∧
      nextDay e9 = s10 ∧
      (getDates ⟨y, m, 24⟩).map Prod.snd = some (isoDate e24) ∧
      (getDates ⟨y, m, 25⟩).map Prod.fst = some (isoDate s25) ∧
      nextDay e24 = s25 := by
  have hb := daysIn_bounds y m
  refine ⟨⟨y, m, 9⟩, ⟨y, m, 10⟩, ⟨y, m, 24⟩, ⟨y, m, 25⟩, ?_, ?_, ?_, ?_, ?_, ?_, ?_⟩
  · unfold Time.Valid
    dsimp only
    omega
  · rw [getDates_eq_resolvePeriod _ hm]
    simp [resolvePeriod]
  · rw [getDates_eq_resolvePeriod _ hm]
    simp [resolvePeriod]
  · unfold nextDay
    dsimp only
    rw [if_pos (by omega)]
    rfl
  · rw [getDates_eq_resolvePeriod _ hm]
    simp [resolvePeriod]
  · rw [getDates_eq_resolvePeriod _ hm]
    simp [resolvePeriod]
  · unfold nextDay
    dsimp only
    rw [if_pos (by omega)]
    rfl

/-- Witness of C4: February 2021. -/
theorem getDates_boundary_contiguous_witness :
    ∃ e9 s10 e24 s25 : Time,
      (e9.Valid ∧ s10.Valid ∧ e24.Valid ∧ s25.Valid) ∧
      (getDates ⟨2021, 2, 9⟩).map Prod.snd = some (isoDate e9) ∧
      (getDates ⟨2021, 2, 10⟩).map Prod.fst = some (isoDate s10) ∧
      nextDay e9 = s10 ∧
      (getDates ⟨2021, 2, 24⟩).map Prod.snd = some (isoDate e24) ∧
      (getDates ⟨2021, 2, 25⟩).map Prod.fst = some (isoDate s25) ∧
      nextDay e24 = s25 :=
  getDates_boundary_contiguous 2021 2 (by decide)

/-- C5: for every valid date the returned pair denotes dates `s` and `e` with `s` not later
than `e`, and the pair has exactly one of the two window shapes: 10th to 24th of one month,
or 25th of a month to the 9th of the month that follows it. -/
theorem getDates_window_shape (date : Time) (hv : date.Valid) :
    ∃ s e : Time, s.Valid ∧ e.Valid ∧
      getDates date = some (isoDate s, isoDate e) ∧
      s.le e ∧
      ((midWindow s e ∧ ¬ crossWindow s e) ∨ (¬ midWindow s e ∧ crossWindow s e)) := by
  have hm : 1 ≤ date.month ∧ date.month ≤ 12 := ⟨hv.1, hv.2.1⟩
  have hsh := resolvePeriod_shape date hm
  exact ⟨(resolvePeriod date).1, (resolvePeriod date).2, (resolvePeriod_valid date hm).1,
    (resolvePeriod_valid date hm).2, getDates_eq_resolvePeriod date hm, hsh.1, hsh.2⟩

/-- Witness of C5: the December rollover 2021-12-26. -/
theorem getDates_window_shape_witness :
    ∃ s e : Time, s.Valid ∧ e.Valid ∧
      getDates ⟨2021, 12, 26⟩ = some (isoDate s, isoDate e) ∧
      s.le e ∧
      ((midWindow s e ∧ ¬ crossWindow s e) ∨ (¬ midWindow s e ∧ crossWindow s e)) :=
  getDates_window_shape ⟨2021, 12, 26⟩ (by decide)

/-- Counterexample to C6: the valid date 0999-02-11 yields strings of nine characters with a
three-digit year, which do not have the shape `YYYY-MM-DD`. -/
theorem getDates_year_999 :
    (⟨999, 2, 11⟩ : Time).Valid ∧
    getDates ⟨999, 2, 11⟩ = some ("999-02-10", "999-02-24") ∧
    ("999-02-10" : String).length = 9 ∧ ("999-02-24" : String).length = 9 ∧
    isYYYYMMDD "999-02-10" = false ∧ isYYYYMMDD "999-02-24" = false := by
  decide

/-- C6 (amended): for every valid date whose year is in 1000..9999, other than 1-9 January
1000 and 25-31 December 9999, both returned strings have the shape `YYYY-MM-DD`: ten
characters, a four-digit year, a dash, a two-digit month, a dash and a two-digit day. -/
theorem getDates_iso_shape (date : Time) (hv : date.Valid)
    (hy : 1000 ≤ date.year ∧ date.year ≤ 9999)
    (hlo : ¬ (date.year = 1000 ∧ date.month = 1 ∧ date.day ≤ 9))
    (hhi : ¬ (date.year = 9999 ∧ date.month = 12 ∧ 25 ≤ date.day)) :
    ∃ p : String × String, getDates date = some p ∧
      p.1.length = 10 ∧ p.2.length = 10 ∧
      isYYYYMMDD p.1 = true ∧ isYYYYMMDD p.2 = true := by
  have hm : 1 ≤ date.month ∧ date.month ≤ 12 := ⟨hv.1, hv.2.1⟩
  have hyr := resolvePeriod_years date hy hlo hhi
  have hb := resolvePeriod_bounds date hm
  have h1 := isoDate_shape (resolvePeriod date).1 hyr.1 hb.1
  have h2 := isoDate_shape (resolvePeriod date).2 hyr.2 hb.2
  exact ⟨_, getDates_eq_resolvePeriod date hm, h1.2, h2.2, h1.1, h2.1⟩

/-- Witness of C6 (amended): 2021-12-26. -/
theorem getDates_iso_shape_witness :
    ∃ p : String × String, getDates ⟨2021, 12, 26⟩ = some p ∧
      p.1.length = 10 ∧ p.2.length = 10 ∧
      isYYYYMMDD p.1 = true ∧ isYYYYMMDD p.2 = true :=
  getDates_iso_shape ⟨2021, 12, 26⟩ (by decide) (by decide) (by decide) (by decide)

/-- C7: zero-padding. For every month number in 1..12, `prepareMonth` is a string of exactly
two decimal digits whose value is the month, with a leading `0` exactly when the month is
below 10; every string returned by `getDates` for a valid date carries such a month field,
and an end date on the 9th has its day rendered `09`. -/
theorem prepareMonth_zero_padded :
    (∀ m : Int, 1 ≤ m → m ≤ 12 →
      (prepareMonth m).length = 2 ∧
      (prepareMonth m).data.all Char.isDigit = true ∧
      decimalValue (prepareMonth m) = some m.toNat ∧
      (m < 10 → (prepareMonth m).data.head? = some '0') ∧
      (10 ≤ m → (prepareMonth m).data.head? ≠ some '0')) ∧
    (∀ date : Time, date.Valid →
      ∃ s e : Time, s.Valid ∧ e.Valid ∧
        getDates date =
          some (fmtD s.year ++ "-" ++ prepareMonth s.month ++ "-" ++ twoDigits s.day,
                fmtD e.year ++ "-" ++ prepareMonth e.month ++ "-" ++ twoDigits e.day) ∧
        (e.day = 9 →
          (getDates date).map Prod.snd =
            some (fmtD e.year ++ "-" ++ prepareMonth e.month ++ "-09"))) := by
  constructor
  · intro m h1 h2
    interval_cases m <;> decide
  · intro date hv
    have hm : 1 ≤ date.month ∧ date.month ≤ 12 := ⟨hv.1, hv.2.1⟩
    have hval := resolvePeriod_valid date hm
    have hs := prepareMonth_eq _ hval.1.1 hval.1.2.1
    have he := prepareMonth_eq _ hval.2.1 hval.2.2.1
    refine ⟨(resolvePeriod date).1, (resolvePeriod date).2, hval.1, hval.2, ?_, ?_⟩
    · rw [hs, he]
      exact getDates_eq_resolvePeriod date hm
    · intro h9
      rw [getDates_eq_resolvePeriod date hm, he]
      simp only [Option.map_some', isoDate, h9]
      rw [dash_two _ 9 "-09" (by decide)]

/-- Witness of C7: month 2 and the date 2021-02-05. -/
theorem prepareMonth_zero_padded_witness :
    prepareMonth 2 = "02" ∧
    ∃ s e : Time, s.Valid ∧ e.Valid ∧
      getDates ⟨2021, 2, 5⟩ =
        some (fmtD s.year ++ "-" ++ prepareMonth s.month ++ "-" ++ twoDigits s.day,
              fmtD e.year ++ "-" ++ prepareMonth e.month ++ "-" ++ twoDigits e.day) ∧
      (e.day = 9 →
        (getDates ⟨2021, 2, 5⟩).map Prod.snd =
          some (fmtD e.year ++ "-" ++ prepareMonth e.month ++ "-09")) :=
  ⟨by decide, prepareMonth_zero_padded.2 ⟨2021, 2, 5⟩ (by decide)⟩

/-- C8: for every date whose day is in 1..31 exactly one of the three conditions of
`getDates` holds, so `getDates` returns a pair and the final panic is not reached. -/
theorem getDates_cases_total (date : Time) (hd : 1 ≤ date.day ∧ date.day ≤ 31) :
    (((date.day ≥ 10 ∧ date.day ≤ 24) ∧ ¬ date.day ≤ 9 ∧ ¬ date.day ≥ 25) ∨
     (¬ (date.day ≥ 10 ∧ date.day ≤ 24) ∧ date.day ≤ 9 ∧ ¬ date.day ≥ 25) ∨
     (¬ (date.day ≥ 10 ∧ date.day ≤ 24) ∧ ¬ date.day ≤ 9 ∧ date.day ≥ 25)) ∧
    ∃ p : String × String, getDates date = some p := by
  constructor
  · omega
  · unfold getDates
    by_cases hA : date.day ≥ 10 ∧ date.day ≤ 24
    · rw [if_pos hA]; exact ⟨_, rfl⟩
    · rw [if_neg hA]
      by_cases hB : date.day ≤ 9
      · rw [if_pos hB]; exact ⟨_, rfl⟩
      · rw [if_neg hB, if_pos (by omega)]; exact ⟨_, rfl⟩

/-- Witness of C8: 2021-02-26. -/
theorem getDates_cases_total_witness :
    ∃ p : String × String, getDates ⟨2021, 2, 26⟩ = some p :=
  (getDates_cases_total ⟨2021, 2, 26⟩ (by decide)).2

/-- C10: the periods partition the calendar. For valid dates `d` and `t` of year 1 or later,
`getDates t = getDates d` exactly when `t` lies between the start date and the end date
denoted by `getDates d`, both included. -/
theorem getDates_partition (d t : Time) (hd : d.Valid) (ht : t.Valid)
    (_hdy : 1 ≤ d.year) (_hty : 1 ≤ t.year) :
    getDates t = getDates d ↔
      ∃ s e : Time, s.Valid ∧ e.Valid ∧ getDates d = some (isoDate s, isoDate e) ∧
        s.le t ∧ t.le e := by
  have hmd : 1 ≤ d.month ∧ d.month ≤ 12 := ⟨hd.1, hd.2.1⟩
  have hmt : 1 ≤ t.month ∧ t.month ≤ 12 := ⟨ht.1, ht.2.1⟩
  constructor
  · intro h
    have hvd := resolvePeriod_valid d hmd
    have hvt := resolvePeriod_valid t hmt
    have hden := getDates_denotes t (resolvePeriod d).1 (resolvePeriod d).2 hmt hvd.1 hvd.2
      (by rw [h]; exact getDates_eq_resolvePeriod d hmd)
    have hmem := resolvePeriod_mem t ht
    rw [← hden.1, ← hden.2] at hmem
    exact ⟨_, _, hvd.1, hvd.2, getDates_eq_resolvePeriod d hmd, hmem.1, hmem.2⟩
  · rintro ⟨s, e, hs, he, hg, h1, h2⟩
    have hden := getDates_denotes d s e hmd hs he hg
    rw [hden.1] at h1
    rw [hden.2] at h2
    have := resolvePeriod_of_mem d t hmd hmt ⟨h1, h2⟩
    rw [getDates_eq_resolvePeriod t hmt, getDates_eq_resolvePeriod d hmd, this]

/-- Witness of C10: 2021-12-26 and 2022-01-05 resolve to the same period. -/
theorem getDates_partition_witness :
    getDates ⟨2022, 1, 5⟩ = getDates ⟨2021, 12, 26⟩ ↔
      ∃ s e : Time, s.Valid ∧ e.Valid ∧
        getDates ⟨2021, 12, 26⟩ = some (isoDate s, isoDate e) ∧
        s.le ⟨2022, 1, 5⟩ ∧ Time.le ⟨2022, 1, 5⟩ e :=
  getDates_partition ⟨2021, 12, 26⟩ ⟨2022, 1, 5⟩ (by decide) (by decide) (by decide) (by decide)

/-! ## API client: the status check -/

theorem doLoop_no_redirect (w : World) (fuel : Nat) (ireq req : Request) (t : List Event)
    (res : Response) (hs : w.serve t req = .ok res)
    (hf : followsRedirect req.method res = false) :
    doLoop w (fuel + 1) ireq req t = (.ok res, t ++ [Event.sent req]) := by
  unfold followsRedirect at hf
  simp only [doLoop, send, hs]
  cases hb : redirectBehavior req.method res.statusCode with
  | none => rfl
  | some p =>
    obtain ⟨m, b⟩ := p
    have hloc : res.header.get "Location" = "" := by
      simpa [hb] using hf
    simp only [hloc, if_true]

theorem clientDo_no_redirect (w : World) (req : Request) (t : List Event) (res : Response)
    (hs : w.serve t req = .ok res) (hf : followsRedirect req.method res = false) :
    clientDo w t req = (.ok res, t ++ [Event.sent req]) :=
  doLoop_no_redirect w 9 req req t res hs hf

/-- Counterexample to C9: the first round trip of `getAccessToken` completes with status 302,
which is not 201, yet the operation returns the token with a nil error, after two requests
on the wire and one decoded body. -/
theorem redirect_followed_no_error :
    (∃ req res, sessionsRequest redirectWorld = .ok req ∧
      redirectWorld.serve [] req = .ok res ∧ res.statusCode = 302 ∧ res.statusCode ≠ 201) ∧
    (getAccessToken redirectWorld []).err = none ∧
    (getAccessToken redirectWorld []).value = "token" ∧
    sentCount (getAccessToken redirectWorld []).trace = 2 ∧
    decodedCount (getAccessToken redirectWorld []).trace = 1 := by
  refine ⟨⟨_, _, rfl, rfl, rfl, by decide⟩, rfl, rfl, rfl, rfl⟩

/-- C9 (amended): for each of the three API operations, when the single call of `Do` returns
a response (the last one received, after the redirects the client follows) whose status code
is not the expected one (201 for `getAccessToken`, 200 for `getFilters` and `getReport`),
the operation returns the error `incorrect response status code: <code>` with the empty
value, whatever the body, and the record of events is the one left by that call: nothing is
decoded and nothing is sent again. When the first round trip completes with such a response
and it is not a redirect the client follows, exactly one request has been sent. -/
theorem unexpected_status_is_error (w : World) (t : List Event) (res : Response) :
    ((∀ req t1, sessionsRequest w = .ok req → clientDo w t req = (.ok res, t1) →
        res.statusCode ≠ 201 →
        getAccessToken w t =
          ⟨"", some ("incorrect response status code: " ++ fmtD res.statusCode), t1⟩) ∧
     (∀ req, sessionsRequest w = .ok req → w.serve t req = .ok res →
        followsRedirect req.method res = false → res.statusCode ≠ 201 →
        getAccessToken w t =
          ⟨"", some ("incorrect response status code: " ++ fmtD res.statusCode),
            t ++ [Event.sent req]⟩)) ∧
    ((∀ accessToken req t1, filtersRequest w accessToken = .ok req →
        clientDo w t req = (.ok res, t1) → res.statusCode ≠ 200 →
        getFilters w t accessToken =
          ⟨none, some ("incorrect response status code: " ++ fmtD res.statusCode), t1⟩) ∧
     (∀ accessToken req, filtersRequest w accessToken = .ok req → w.serve t req = .ok res →
        followsRedirect req.method res = false → res.statusCode ≠ 200 →
        getFilters w t accessToken =
          ⟨none, some ("incorrect response status code: " ++ fmtD res.statusCode),
            t ++ [Event.sent req]⟩)) ∧
    ((∀ filters startDate endDate accessToken req t1,
        reportRequest w filters startDate endDate accessToken = .ok req →
        clientDo w t req = (.ok res, t1) → res.statusCode ≠ 200 →
        getReport w t filters startDate endDate accessToken =
          ⟨none, some ("incorrect response status code: " ++ fmtD res.statusCode), t1⟩) ∧
     (∀ filters startDate endDate accessToken req,
        reportRequest w filters startDate endDate accessToken = .ok req →
        w.serve t req = .ok res → followsRedirect req.method res = false →
        res.statusCode ≠ 200 →
        getReport w t filters startDate endDate accessToken =
          ⟨none, some ("incorrect response status code: " ++ fmtD res.statusCode),
            t ++ [Event.sent req]⟩)) := by
  have hA : ∀ req t1, sessionsRequest w = .ok req → clientDo w t req = (.ok res, t1) →
      res.statusCode ≠ 201 →
      getAccessToken w t =
        ⟨"", some ("incorrect response status code: " ++ fmtD res.statusCode), t1⟩ := by
    intro req t1 hreq hdo hne
    simp only [getAccessToken, hreq, hdo, if_pos hne]
  have hF : ∀ accessToken req t1, filtersRequest w accessToken = .ok req →
      clientDo w t req = (.ok res, t1) → res.statusCode ≠ 200 →
      getFilters w t accessToken =
        ⟨none, some ("incorrect response status code: " ++ fmtD res.statusCode), t1⟩ := by
    intro accessToken req t1 hreq hdo hne
    simp only [getFilters, hreq, hdo, if_pos hne]
  have hR : ∀ filters startDate endDate accessToken req t1,
      reportRequest w filters startDate endDate accessToken = .ok req →
      clientDo w t req = (.ok res, t1) → res.statusCode ≠ 200 →
      getReport w t filters startDate endDate accessToken =
        ⟨none, some ("incorrect response status code: " ++ fmtD res.statusCode), t1⟩ := by
    intro filters startDate endDate accessToken req t1 hreq hdo hne
    simp only [getReport, hreq, hdo, if_pos hne]
  refine ⟨⟨hA, ?_⟩, ⟨hF, ?_⟩, ⟨hR, ?_⟩⟩
  · intro req hreq hs hf hne
    exact hA req _ hreq (clientDo_no_redirect w req t res hs hf) hne
  · intro accessToken req hreq hs hf hne
    exact hF accessToken req _ hreq (clientDo_no_redirect w req t res hs hf) hne
  · intro filters startDate endDate accessToken req hreq hs hf hne
    exact hR filters startDate endDate accessToken req _ hreq
      (clientDo_no_redirect w req t res hs hf) hne

/-- Witness of C9 (amended): a world answering every request with status 500. -/
theorem unexpected_status_is_error_witness :
    (getAccessToken failingWorld []).value = "" ∧
    (getAccessToken failingWorld []).err = some "incorrect response status code: 500" ∧
    sentCount (getAccessToken failingWorld []).trace = 1 ∧
    decodedCount (getAccessToken failingWorld []).trace = 0 ∧
    (getFilters failingWorld [] "t").err = some "incorrect response status code: 500" ∧
    sentCount (getFilters failingWorld [] "t").trace = 1 ∧
    (getReport failingWorld [] ⟨[], []⟩ "2021-02-10" "2021-02-24" "t").err =
      some "incorrect response status code: 500" ∧
    sentCount (getReport failingWorld [] ⟨[], []⟩ "2021-02-10" "2021-02-24" "t").trace = 1 := by
  have h := unexpected_status_is_error failingWorld [] ⟨500, Values.empty, "body"⟩
  have h1 := h.1.2 _ rfl rfl (by decide) (by decide)
  have h2 := h.2.1.2 "t" _ rfl rfl (by decide) (by decide)
  have h3 := h.2.2.2 ⟨[], []⟩ "2021-02-10" "2021-02-24" "t" _ rfl rfl (by decide) (by decide)
  rw [h1, h2, h3]
  exact ⟨rfl, by decide, rfl, rfl, by decide, rfl, by decide, rfl⟩

end TimetrackReport
